import Mathlib
/-
Verification of the placeholder-resolution engine of an offer-letter
generator (src/app.py).

The engine has two layers:
  * a token Resolver: replace_placeholders_in_text, built from a curly-token
    pass (regex PLACEHOLDER) followed by the legacy X-style pass
    apply_x_style (regexes PAT_NAME, PAT_POS, PAT_DATE, PAT_SAL plus the
    city-line special case), with the salary formatter format_ars_dots;
  * a document Walker: _replace_in_text_frame over paragraphs and runs,
    _replace_in_table, _walk_shapes over nested groups, and render_pptx.

Strings are modelled as lists of characters (String.data).  The Python
regex substitutions are modelled by deterministic scanners: each of the
five patterns used by the program admits no backtracking ambiguity, so a
left-to-right maximal-munch scan reproduces re.sub exactly.  The scanners
are written with an explicit fuel argument (one unit of fuel per scan
position; every step consumes at least one character, hence fuel equal to
the length of the input is always sufficient) so that all definitions are
structurally recursive and evaluate by kernel reduction.

Character classes follow the ASCII fragment of the Python semantics; the
templates and mapping values exercised by the specification are ASCII.
-/

namespace OfferApp

/-- Mapping from field keys to values, modelling the Python dict of
strings: lookup returns none when the key is absent (dict.get). -/
abbrev Mapping := String → Option String

/-- Mapping built from an association list, later entries shadowed by
earlier ones; a convenience for concrete test mappings. -/
def ofPairs (ps : List (String × String)) : Mapping :=
  fun k => (ps.find? (fun q => q.fst == k)).map Prod.snd

/-- The empty mapping: every key is absent. -/
def emptyMap : Mapping := fun _ => none

/-- Python regex class backslash-s, ASCII fragment: space, tab, newline,
carriage return, vertical tab, form feed. -/
def isSpaceCh (c : Char) : Bool :=
  decide (c.toNat = 32) || decide (c.toNat = 9) || decide (c.toNat = 10) ||
  decide (c.toNat = 13) || decide (c.toNat = 11) || decide (c.toNat = 12)

/-- Python str.isdigit, ASCII fragment: the characters 0-9. -/
def isDigitCh (c : Char) : Bool :=
  decide (48 ≤ c.toNat) && decide (c.toNat ≤ 57)

/-- Python regex word class backslash-w, ASCII fragment: letters, digits,
underscore.  Used for the word-boundary assertions of PAT_DATE and
PAT_SAL. -/
def isWordCh (c : Char) : Bool :=
  (decide (65 ≤ c.toNat) && decide (c.toNat ≤ 90)) ||
  (decide (97 ≤ c.toNat) && decide (c.toNat ≤ 122)) ||
  isDigitCh c || decide (c.toNat = 95)

/-- Characters allowed in a curly-token key by the PLACEHOLDER regex:
uppercase letters, digits, underscore (the class [A-Z0-9_]). -/
def isKeyCh (c : Char) : Bool :=
  (decide (65 ≤ c.toNat) && decide (c.toNat ≤ 90)) ||
  isDigitCh c || decide (c.toNat = 95)

/-- Boolean prefix test on character lists. -/
def hasPrefixL : List Char → List Char → Bool
  | [], _ => true
  | _ :: _, [] => false
  | p :: ps, c :: cs => p == c && hasPrefixL ps cs

/-- Boolean suffix test on character lists. -/
def hasSuffixL (p l : List Char) : Bool :=
  hasPrefixL p.reverse l.reverse

/-- Python str.strip with no argument (ASCII whitespace fragment):
drop whitespace from both ends. -/
def stripL (l : List Char) : List Char :=
  ((l.dropWhile isSpaceCh).reverse.dropWhile isSpaceCh).reverse

/-- Uppercase a string character by character, modelling Python str.upper
on the ASCII fragment.  (String.toUpper is avoided because it does not
evaluate by kernel reduction.) -/
def upperStr (s : String) : String :=
  String.mk (s.data.map Char.toUpper)

/--
Matcher for the PLACEHOLDER regex
  two open braces, optional whitespace, a nonempty key over [A-Z0-9_],
  optional whitespace, two close braces
at the head of the input.  Returns (key, whole matched text, remainder).
All three subpattern repetitions are greedy and their character classes
are pairwise disjoint from what follows them, so maximal munch without
backtracking reproduces the regex exactly.
-/
def matchCurly (l : List Char) : Option (List Char × List Char × List Char) :=
  match l with
  | '{' :: '{' :: r0 =>
    let sp1 := r0.takeWhile isSpaceCh
    let r1 := r0.dropWhile isSpaceCh
    let key := r1.takeWhile isKeyCh
    let r2 := r1.dropWhile isKeyCh
    let sp2 := r2.takeWhile isSpaceCh
    let r3 := r2.dropWhile isSpaceCh
    match key, r3 with
    | _ :: _, '}' :: '}' :: r4 =>
      some (key, '{' :: '{' :: (sp1 ++ key ++ sp2 ++ '}' :: '}' :: []), r4)
    | _, _ => none
  | _ => none

/-- Replacement chosen by the PLACEHOLDER substitution callback: look the
uppercased key up in the mapping; if present take the value (even the
empty string), if absent keep the whole matched token text. -/
def curlyRepl (m : Mapping) (key whole : List Char) : List Char :=
  match m (upperStr (String.mk key)) with
  | some v => v.data
  | none => whole

/-- Fueled scanner for the curly-token substitution (PLACEHOLDER.sub with
the lookup callback).  One unit of fuel per scan position; each step
consumes at least one input character, so fuel equal to the input length
is always sufficient.  Replacements are emitted verbatim and never
rescanned, exactly as re.sub does. -/
def curlySubGo (m : Mapping) : Nat → List Char → List Char
  | 0, l => l
  | _ + 1, [] => []
  | fuel + 1, c :: rest =>
    match matchCurly (c :: rest) with
    | some (key, whole, r4) => curlyRepl m key whole ++ curlySubGo m fuel r4
    | none => c :: curlySubGo m fuel rest

/-- Curly-token substitution over a character list. -/
def curlySub (m : Mapping) (l : List Char) : List Char :=
  curlySubGo m l.length l

/-- Literal text matched by PAT_NAME: an open brace, six X characters, a
close brace.  The regex contains no character class or assertion, so its
substitution is plain literal replacement. -/
def patNameL : List Char := "\x7bXXXXXX\x7d".data

/-- Literal text matched by the core of PAT_SAL: X dot XXX dot XXX. -/
def patSalL : List Char := "X.XXX.XXX".data

/-- Eight X characters, the core of PAT_POS. -/
def xs8 : List Char := List.replicate 8 'X'

/-- The literal suffix tested by the city-line special case. -/
def cityTarget : List Char := ", Buenos Aires".data

/-- Fueled scanner for substitution of a literal pattern (PAT_NAME):
leftmost non-overlapping occurrences of the literal are replaced, the
replacement is emitted verbatim and scanning resumes after the matched
text, exactly as re.sub does. -/
def subLitGo (pat repl : List Char) : Nat → List Char → List Char
  | 0, l => l
  | _ + 1, [] => []
  | fuel + 1, c :: rest =>
    if pat ≠ [] ∧ hasPrefixL pat (c :: rest) = true then
      repl ++ subLitGo pat repl fuel ((c :: rest).drop pat.length)
    else
      c :: subLitGo pat repl fuel rest

/-- Literal-pattern substitution over a character list. -/
def subLit (pat repl l : List Char) : List Char :=
  subLitGo pat repl l.length l

/-- Match condition of PAT_POS at a scan position: eight consecutive X
characters, where the preceding character (tracked by the scanner) is not
an open brace (negative lookbehind) and the character following the eight
X characters is not a close brace (negative lookahead). -/
def posHit (prev : Option Char) (l : List Char) : Bool :=
  hasPrefixL xs8 l && !(prev == some '{') &&
    (match l.drop 8 with
     | [] => true
     | d :: _ => !(d == '}'))

/-- Fueled scanner for the PAT_POS substitution.  The scanner carries the
character preceding the current position in the original text (matching
happens over the original string, so a replacement never influences the
lookbehind of a later match). -/
def posScanGo (repl : List Char) : Option Char → Nat → List Char → List Char
  | _, 0, l => l
  | _, _ + 1, [] => []
  | prev, fuel + 1, c :: rest =>
    if posHit prev (c :: rest) = true then
      repl ++ posScanGo repl (some 'X') fuel ((c :: rest).drop 8)
    else
      c :: posScanGo repl (some c) fuel rest

/-- PAT_POS substitution over a character list. -/
def posScan (repl l : List Char) : List Char :=
  posScanGo repl none l.length l

/-- Word-boundary test against the preceding character: the first and last
characters of PAT_DATE and PAT_SAL matches are word characters, so the
boundary holds exactly when the neighbouring character is absent or not a
word character. -/
def boundB (prev : Option Char) : Bool :=
  match prev with
  | none => true
  | some c => !isWordCh c

/--
Matcher for the body of PAT_DATE at the head of the input:
  two X characters, whitespace, the literal de, whitespace, four or five
  X characters, whitespace, the literal de, whitespace, four decimal
  digits, followed by a word boundary.
Returns (consumed text, remainder).  Greediness is unambiguous: every
repetition is followed by a disjoint character class, except that the
four-or-five X run must be a maximal run of length four or five (a run of
six or more X characters can satisfy neither alternative), and the four
digits must not be followed by a word character (the trailing boundary).
The leading word boundary is checked by the caller.
-/
def matchDate (l : List Char) : Option (List Char × List Char) :=
  match l with
  | 'X' :: 'X' :: r0 =>
    let sp1 := r0.takeWhile isSpaceCh
    let r1 := r0.dropWhile isSpaceCh
    if sp1.isEmpty then none
    else
      match r1 with
      | 'd' :: 'e' :: r2 =>
        let sp2 := r2.takeWhile isSpaceCh
        let r3 := r2.dropWhile isSpaceCh
        if sp2.isEmpty then none
        else
          let xs := r3.takeWhile (fun c => c == 'X')
          let r4 := r3.dropWhile (fun c => c == 'X')
          if xs.length = 4 ∨ xs.length = 5 then
            let sp3 := r4.takeWhile isSpaceCh
            let r5 := r4.dropWhile isSpaceCh
            if sp3.isEmpty then none
            else
              match r5 with
              | 'd' :: 'e' :: r6 =>
                let sp4 := r6.takeWhile isSpaceCh
                let r7 := r6.dropWhile isSpaceCh
                if sp4.isEmpty then none
                else
                  match r7 with
                  | d1 :: d2 :: d3 :: d4 :: r8 =>
                    if isDigitCh d1 && isDigitCh d2 && isDigitCh d3 && isDigitCh d4 &&
                        (match r8 with
                         | [] => true
                         | e :: _ => !isWordCh e) then
                      some ('X' :: 'X' :: (sp1 ++ 'd' :: 'e' :: (sp2 ++ xs ++ sp3 ++
                        'd' :: 'e' :: (sp4 ++ d1 :: d2 :: d3 :: d4 :: []))), r8)
                    else none
                  | _ => none
              | _ => none
          else none
      | _ => none
  | _ => none

/-- Fueled scanner for the PAT_DATE substitution; the scanner carries the
character preceding the current position for the leading word-boundary
assertion, and on a match resumes after the consumed text with the last
consumed character (a digit) as the new preceding character. -/
def dateScanGo (repl : List Char) : Option Char → Nat → List Char → List Char
  | _, 0, l => l
  | _, _ + 1, [] => []
  | prev, fuel + 1, c :: rest =>
    match matchDate (c :: rest), boundB prev with
    | some (w, r8), true => repl ++ dateScanGo repl (some (w.getLastD 'X')) fuel r8
    | _, _ => c :: dateScanGo repl (some c) fuel rest

/-- PAT_DATE substitution over a character list. -/
def dateScan (repl l : List Char) : List Char :=
  dateScanGo repl none l.length l

/-- Match condition of PAT_SAL at a scan position: the literal X.XXX.XXX
with a word boundary on both sides (X is a word character, the dot is
not, so each boundary reduces to the neighbouring character being absent
or a non-word character). -/
def salHit (prev : Option Char) (l : List Char) : Bool :=
  hasPrefixL patSalL l && boundB prev &&
    (match l.drop 9 with
     | [] => true
     | d :: _ => !isWordCh d)

/-- Fueled scanner for the PAT_SAL substitution, carrying the preceding
original character for the leading word boundary. -/
def salScanGo (repl : List Char) : Option Char → Nat → List Char → List Char
  | _, 0, l => l
  | _, _ + 1, [] => []
  | prev, fuel + 1, c :: rest =>
    if salHit prev (c :: rest) = true then
      repl ++ salScanGo repl (some 'X') fuel ((c :: rest).drop 9)
    else
      c :: salScanGo repl (some c) fuel rest

/-- PAT_SAL substitution over a character list. -/
def salScan (repl l : List Char) : List Char :=
  salScanGo repl none l.length l

/-- Numeric value of a digit string, modelling Python int() on a string of
decimal digits (leading zeros are absorbed into the numeric value). -/
def digitsToNat (l : List Char) : Nat :=
  l.foldl (fun acc c => 10 * acc + (c.toNat - 48)) 0

/-- Fueled grouping pass over a reversed digit string: after every third
character a dot is inserted, provided more characters follow; this is the
reversed form of the comma grouping of Python format specifier comma,
with the comma already replaced by a dot. -/
def group3Go : Nat → List Char → List Char
  | 0, l => l
  | fuel + 1, a :: b :: c :: d :: rest => a :: b :: c :: '.' :: group3Go fuel (d :: rest)
  | _ + 1, l => l

/-- Decimal rendering of a natural number with a dot as thousands
separator, modelling the Python expression that formats int(digits) with
comma grouping and then replaces every comma by a dot. -/
def groupDots (n : Nat) : String :=
  String.mk ((group3Go (Nat.repr n).data.reverse.length (Nat.repr n).data.reverse).reverse)

/-- Model of format_ars_dots: keep only the decimal digits of the value;
if none remain return the value unchanged, otherwise parse the digits as
a nonnegative integer and render it with dot-grouped thousands.
The Python function accepts any value and first applies str; the numeric
inputs of the program are modelled by passing Nat.repr of the number. -/
def format_ars_dots (value : String) : String :=
  let digits := value.data.filter isDigitCh
  if digits.isEmpty then value else groupDots (digitsToNat digits)

/-- Truthiness of an optional string, modelling the Python if-guard on a
dict.get result: false for an absent key and for the empty string. -/
def optTruthy (v : Option String) : Bool :=
  match v with
  | some s => !s.isEmpty
  | none => false

/-- Name stage of apply_x_style: when CANDIDATE_NAME is truthy, substitute
the literal PAT_NAME pattern by its value. -/
def nameStep (m : Mapping) (t : List Char) : List Char :=
  match m "CANDIDATE_NAME" with
  | some v => if v.isEmpty then t else subLit patNameL v.data t
  | none => t

/-- Position stage of apply_x_style: when POSITION is truthy, run the
PAT_POS substitution. -/
def posStep (m : Mapping) (t : List Char) : List Char :=
  match m "POSITION" with
  | some v => if v.isEmpty then t else posScan v.data t
  | none => t

/-- Join-date stage of apply_x_style: when JOIN_DATE is truthy, run the
PAT_DATE substitution. -/
def dateStep (m : Mapping) (t : List Char) : List Char :=
  match m "JOIN_DATE" with
  | some v => if v.isEmpty then t else dateScan v.data t
  | none => t

/-- Salary stage of apply_x_style: when SALARY is truthy, run the PAT_SAL
substitution with the dot-formatted salary as replacement. -/
def salStep (m : Mapping) (t : List Char) : List Char :=
  match m "SALARY" with
  | some v => if v.isEmpty then t else salScan (format_ars_dots v).data t
  | none => t

/-- The four guarded legacy substitutions of apply_x_style, in source
order: name, position, join date, salary. -/
def applyXStyleSubs (t : List Char) (m : Mapping) : List Char :=
  salStep m (dateStep m (posStep m (nameStep m t)))

/-- City value with its default: mapping.get of CITY with default
Buenos Aires. -/
def cityOf (m : Mapping) : String :=
  (m "CITY").getD "Buenos Aires"

/-- Model of apply_x_style: the four guarded substitutions, then the
city-line special case on the stripped result. -/
def apply_x_style (text : String) (m : Mapping) : String :=
  let out := applyXStyleSubs text.data m
  let striped := stripL out
  if striped = cityTarget ∨ hasSuffixL cityTarget striped = true then
    match m "DATE" with
    | some d => if d.isEmpty then cityOf m else d ++ ", " ++ cityOf m
    | none => cityOf m
  else String.mk out

/-- Model of replace_placeholders_in_text: the curly pass followed by
apply_x_style on its output. -/
def replace_placeholders_in_text (text : String) (m : Mapping) : String :=
  apply_x_style (String.mk (curlySub m text.data)) m

/-- Octal digit test for replacement-template escapes. -/
def octDigit (c : Char) : Bool :=
  decide (48 ≤ c.toNat) && decide (c.toNat ≤ 55)

/--
Fueled parser and expander for a Python re.sub replacement template,
specialised to the patterns of apply_x_style, none of which defines a
capture group.  CPython compiles the template eagerly, before any match
is attempted, so an invalid template raises re.error even when the
pattern never occurs in the text; none models that raise.  Handled forms:
a doubled backslash; the character escapes a, b, f, n, r, t, v; an octal
escape of a zero followed by up to two further octal digits; a backslash
before any other ASCII letter is a bad escape (error), a backslash before
a decimal digit is a reference to a nonexistent capture group (error),
and a backslash before any remaining character is kept verbatim.  The
whole-match reference (backslash g with a zero group number) is modelled
as invalid as well; it does not occur in the claims.
-/
def expandReplGo : Nat → List Char → Option (List Char)
  | 0, l => some l
  | _ + 1, [] => some []
  | fuel + 1, c :: rest =>
    if c == '\\' then
      match rest with
      | [] => none
      | e :: rest' =>
        if e == '\\' then (expandReplGo fuel rest').map (fun l => '\\' :: l)
        else if e == 'n' then (expandReplGo fuel rest').map (fun l => Char.ofNat 10 :: l)
        else if e == 't' then (expandReplGo fuel rest').map (fun l => Char.ofNat 9 :: l)
        else if e == 'r' then (expandReplGo fuel rest').map (fun l => Char.ofNat 13 :: l)
        else if e == 'f' then (expandReplGo fuel rest').map (fun l => Char.ofNat 12 :: l)
        else if e == 'v' then (expandReplGo fuel rest').map (fun l => Char.ofNat 11 :: l)
        else if e == 'a' then (expandReplGo fuel rest').map (fun l => Char.ofNat 7 :: l)
        else if e == 'b' then (expandReplGo fuel rest').map (fun l => Char.ofNat 8 :: l)
        else if e == '0' then
          let os := (rest'.take 2).takeWhile octDigit
          (expandReplGo fuel (rest'.drop os.length)).map
            (fun l => Char.ofNat (os.foldl (fun a d => 8 * a + (d.toNat - 48)) 0) :: l)
        else if isDigitCh e then none
        else if (decide (97 ≤ e.toNat) && decide (e.toNat ≤ 122)) ||
            (decide (65 ≤ e.toNat) && decide (e.toNat ≤ 90)) then none
        else (expandReplGo fuel rest').map (fun l => '\\' :: e :: l)
    else (expandReplGo fuel rest).map (fun l => c :: l)

/-- Replacement-template expansion; none signals the re.error raise. -/
def expandRepl (l : List Char) : Option (List Char) :=
  expandReplGo l.length l

/-- Name stage of apply_x_style in the raise-aware model. -/
def nameStepE (m : Mapping) (t : List Char) : Except String (List Char) :=
  match m "CANDIDATE_NAME" with
  | some v =>
    if v.isEmpty then .ok t
    else
      match expandRepl v.data with
      | some r => .ok (subLit patNameL r t)
      | none => .error "re.error: invalid replacement template"
  | none => .ok t

/-- Position stage of apply_x_style in the raise-aware model. -/
def posStepE (m : Mapping) (t : List Char) : Except String (List Char) :=
  match m "POSITION" with
  | some v =>
    if v.isEmpty then .ok t
    else
      match expandRepl v.data with
      | some r => .ok (posScan r t)
      | none => .error "re.error: invalid replacement template"
  | none => .ok t

/-- Join-date stage of apply_x_style in the raise-aware model. -/
def dateStepE (m : Mapping) (t : List Char) : Except String (List Char) :=
  match m "JOIN_DATE" with
  | some v =>
    if v.isEmpty then .ok t
    else
      match expandRepl v.data with
      | some r => .ok (dateScan r t)
      | none => .error "re.error: invalid replacement template"
  | none => .ok t

/-- Salary stage of apply_x_style in the raise-aware model; the template
is the dot-formatted salary. -/
def salStepE (m : Mapping) (t : List Char) : Except String (List Char) :=
  match m "SALARY" with
  | some v =>
    if v.isEmpty then .ok t
    else
      match expandRepl (format_ars_dots v).data with
      | some r => .ok (salScan r t)
      | none => .error "re.error: invalid replacement template"
  | none => .ok t

/-- Model of apply_x_style that tracks the re.error raise of an invalid
replacement template (the only way the resolver can raise); on
backslash-free values it agrees with apply_x_style.  The first failing
substitution wins, in source order. -/
def apply_x_styleE (text : String) (m : Mapping) : Except String String :=
  match nameStepE m text.data with
  | .error e => .error e
  | .ok t1 =>
    match posStepE m t1 with
    | .error e => .error e
    | .ok t2 =>
      match dateStepE m t2 with
      | .error e => .error e
      | .ok t3 =>
        match salStepE m t3 with
        | .error e => .error e
        | .ok t4 =>
          if stripL t4 = cityTarget ∨ hasSuffixL cityTarget (stripL t4) = true then
            match m "DATE" with
            | some d => .ok (if d.isEmpty then cityOf m else d ++ ", " ++ cityOf m)
            | none => .ok (cityOf m)
          else .ok (String.mk t4)

/-- Raise-aware model of replace_placeholders_in_text; the curly pass uses
a callback replacement and cannot raise. -/
def replace_placeholders_in_textE (text : String) (m : Mapping) : Except String String :=
  apply_x_styleE (String.mk (curlySub m text.data)) m

/-- Paragraph of a text frame: an ordered list of formatting runs, each
carrying its text, plus the raw paragraph text used by the walker for the
run-less representation some containers allow (para.text is read only in
that branch and assigning it rewrites the paragraph wholesale). -/
structure Para where
  runs : List String
  raw : String
deriving DecidableEq

/-- Concatenation of the run texts of a paragraph, modelling the
str.join over runs in _replace_in_text_frame. -/
def paraJoin (rs : List String) : String :=
  rs.foldl (fun a b => a ++ b) ""

/-- Visible text of a paragraph: the joined runs, or the raw text for the
run-less representation. -/
def paraText (p : Para) : String :=
  if p.runs.isEmpty then p.raw else paraJoin p.runs

/-- Model of the per-paragraph body of _replace_in_text_frame: a run-less
paragraph with nonempty raw text is resolved against that raw text and
written back only when changed; otherwise the runs are flattened,
resolved, and on a change the whole resolved string goes into the first
run while every later run is blanked. -/
def replaceParagraph (m : Mapping) (p : Para) : Para :=
  if p.runs.isEmpty then
    if p.raw.isEmpty then p
    else
      if replace_placeholders_in_text p.raw m = p.raw then p
      else { p with raw := replace_placeholders_in_text p.raw m }
  else
    if replace_placeholders_in_text (paraJoin p.runs) m = paraJoin p.runs then p
    else { p with runs := replace_placeholders_in_text (paraJoin p.runs) m ::
            List.replicate (p.runs.length - 1) "" }

/-- Shape tree of a slide: a text container (list of paragraphs), a table
(rows of cells, each cell a text container), a group of nested shapes, or
any other shape, which the walker skips. -/
inductive Shape where
  | txt : List Para → Shape
  | table : List (List (List Para)) → Shape
  | group : List Shape → Shape
  | other : Shape

/-- Application of the resolver to every paragraph of a text frame. -/
def frameMap (m : Mapping) (ps : List Para) : List Para :=
  ps.map (replaceParagraph m)

mutual

/-- Model of _walk_shapes on a single shape: text frames are rewritten in
place, tables are visited cell by cell in row-major order, groups recurse
into their children, and any other shape is left untouched. -/
def walkShape (m : Mapping) : Shape → Shape
  | .txt ps => .txt (frameMap m ps)
  | .table rows => .table (rows.map (fun row => row.map (frameMap m)))
  | .group ss => .group (walkShapes m ss)
  | .other => .other

/-- Model of _walk_shapes on a shape list. -/
def walkShapes (m : Mapping) : List Shape → List Shape
  | [] => []
  | s :: ss => walkShape m s :: walkShapes m ss

end

mutual

/-- Visible paragraph texts of a shape, in traversal order. -/
def shapeTexts : Shape → List String
  | .txt ps => ps.map paraText
  | .table rows => (rows.map (fun row => (row.map (fun cell => cell.map paraText)).flatten)).flatten
  | .group ss => shapesTexts ss
  | .other => []

/-- Visible paragraph texts of a shape list, in traversal order. -/
def shapesTexts : List Shape → List String
  | [] => []
  | s :: ss => shapeTexts s ++ shapesTexts ss

end

/-- Model of render_pptx: walk every slide of the document.  Parsing and
serialisation of the byte container are abstracted as the identity on the
shape tree (the specification itself waives byte identity). -/
def render_pptx (m : Mapping) (doc : List (List Shape)) : List (List Shape) :=
  doc.map (walkShapes m)

/-- Visible paragraph texts of a whole document, in traversal order. -/
def docTexts (doc : List (List Shape)) : List String :=
  (doc.map shapesTexts).flatten

/-- Generic scanner for token existence: does the hit predicate, fed the
preceding character, fire at any position of the list. -/
def scanHit (f : Option Char → List Char → Bool) : Option Char → List Char → Bool
  | _, [] => false
  | prev, c :: rest => f prev (c :: rest) || scanHit f (some c) rest

/-- Presence of any token recognized by the resolver in a text: a curly
token, one of the four legacy X-style patterns, or the city-line suffix
that triggers the special case. -/
def containsRecognizedToken (s : String) : Bool :=
  scanHit (fun _ l => (matchCurly l).isSome) none s.data ||
  scanHit (fun _ l => hasPrefixL patNameL l) none s.data ||
  scanHit posHit none s.data ||
  scanHit (fun prev l => boundB prev && (matchDate l).isSome) none s.data ||
  scanHit salHit none s.data ||
  decide (stripL s.data = cityTarget) || hasSuffixL cityTarget (stripL s.data)

/-- Fueled splitter modelling Python str.split with no argument: maximal
runs of non-whitespace characters, outer whitespace dropped. -/
def wordsOfGo : Nat → List Char → List (List Char)
  | 0, _ => []
  | _ + 1, [] => []
  | fuel + 1, c :: rest =>
    if isSpaceCh c then wordsOfGo fuel rest
    else ((c :: rest).takeWhile (fun x => !isSpaceCh x)) ::
      wordsOfGo fuel ((c :: rest).dropWhile (fun x => !isSpaceCh x))

/-- Joining of words with single spaces, modelling str.join with a space
separator. -/
def joinWords : List (List Char) → List Char
  | [] => []
  | w :: ws =>
    match ws with
    | [] => w
    | _ :: _ => w ++ ' ' :: joinWords ws

/-- Whitespace collapsing of the candidate name: split on whitespace runs
and rejoin with single spaces. -/
def collapseWs (s : String) : String :=
  String.mk (joinWords (wordsOfGo s.data.length s.data))

/-- Model of the safe_name expression: the collapsed full name, or the
fallback Offer Letter when the collapse is empty (the Python or). -/
def safe_name (full : String) : String :=
  if collapseWs full = "" then "Offer Letter" else collapseWs full

/-- Model of the file_name_out expression: the suggested download
filename built from the safe name. -/
def file_name_out (full : String) : String :=
  "Offer Letter - " ++ safe_name full ++ ".pptx"

/-- Absence of a backslash in every value a mapping stores under a key. -/
def noBS (o : Option String) : Prop :=
  ∀ s, o = some s → '\\' ∉ s.data

/-- A character in the key class is not whitespace. -/
theorem key_not_space {c : Char} (h : isKeyCh c = true) : isSpaceCh c = false := by
  simp only [isKeyCh, Bool.or_eq_true, Bool.and_eq_true, decide_eq_true_eq, isDigitCh] at h
  simp only [isSpaceCh, Bool.or_eq_false_iff, decide_eq_false_iff_not]
  omega

/-- Uppercasing a character of the key class is the identity: the class
holds no lowercase letter. -/
theorem key_toUpper {c : Char} (h : isKeyCh c = true) : c.toUpper = c := by
  simp only [isKeyCh, Bool.or_eq_true, Bool.and_eq_true, decide_eq_true_eq, isDigitCh] at h
  unfold Char.toUpper
  rw [if_neg]
  omega

/-- Uppercasing a string all of whose characters are in the key class is
the identity. -/
theorem upperStr_key {k : List Char} (h : ∀ c ∈ k, isKeyCh c = true) :
    upperStr (String.mk k) = String.mk k := by
  unfold upperStr
  congr 1
  calc k.map Char.toUpper = k.map id := List.map_congr_left (fun c hc => key_toUpper (h c hc))
  _ = k := List.map_id k

/-- Decomposition of takeWhile and dropWhile over an append whose first
part satisfies the predicate everywhere. -/
theorem takeWhile_append_all {p : Char → Bool} :
    ∀ (l₁ l₂ : List Char), (∀ c ∈ l₁, p c = true) →
      (l₁ ++ l₂).takeWhile p = l₁ ++ l₂.takeWhile p ∧
      (l₁ ++ l₂).dropWhile p = l₂.dropWhile p := by
  intro l₁ l₂ h
  induction l₁ with
  | nil => simp
  | cons c cs ih =>
    have hc : p c = true := h c (by simp)
    have ih' := ih (fun x hx => h x (by simp [hx]))
    simp [List.takeWhile_cons, List.dropWhile_cons, hc, ih'.1, ih'.2]

/-- Length of dropWhile is at most the length of the list. -/
theorem length_dropWhile_le (p : Char → Bool) (l : List Char) :
    (l.dropWhile p).length ≤ l.length := by
  induction l with
  | nil => simp
  | cons c cs ih =>
    rw [List.dropWhile_cons]
    split
    · exact Nat.le_succ_of_le ih
    · simp

/-- A successful curly match decomposes the input: the matched text
followed by the remainder is the input, and the remainder is strictly
shorter. -/
theorem matchCurly_parts {l k w r : List Char}
    (h : matchCurly l = some (k, w, r)) : w ++ r = l ∧ r.length < l.length := by
  unfold matchCurly at h
  split at h
  case h_2 => exact absurd h (by simp)
  case h_1 c2 r0 =>
    dsimp only at h
    split at h
    case h_2 => exact absurd h (by simp)
    case h_1 kh kt r4 hkey hr3 =>
      simp only [Option.some.injEq, Prod.mk.injEq] at h
      obtain ⟨h1, h2, h3⟩ := h
      subst h1 h2 h3
      have e1 : List.takeWhile isSpaceCh r0 ++ List.dropWhile isSpaceCh r0 = r0 :=
        List.takeWhile_append_dropWhile isSpaceCh r0
      have e2 : List.takeWhile isKeyCh (List.dropWhile isSpaceCh r0) ++
          List.dropWhile isKeyCh (List.dropWhile isSpaceCh r0) =
          List.dropWhile isSpaceCh r0 :=
        List.takeWhile_append_dropWhile isKeyCh _
      have e3 : List.takeWhile isSpaceCh (List.dropWhile isKeyCh (List.dropWhile isSpaceCh r0)) ++
          List.dropWhile isSpaceCh (List.dropWhile isKeyCh (List.dropWhile isSpaceCh r0)) =
          List.dropWhile isKeyCh (List.dropWhile isSpaceCh r0) :=
        List.takeWhile_append_dropWhile isSpaceCh _
      rw [hr3] at e3
      constructor
      · simp only [List.cons_append, List.append_assoc, List.nil_append]
        rw [e3, e2, e1]
      · have l1 := congrArg List.length e1
        have l2 := congrArg List.length e2
        have l3 := congrArg List.length e3
        simp only [List.length_append, List.length_cons] at l1 l2 l3 ⊢
        omega

example : replace_placeholders_in_text "Hola \x7b\x7b NAME \x7d\x7d, bienvenido a \x7b\x7bCITY\x7d\x7d"
    (ofPairs [("NAME", "Ana"), ("CITY", "BA")]) = "Hola Ana, bienvenido a BA" := by decide

example : replace_placeholders_in_text "\x7b\x7bUNKNOWN\x7d\x7d" emptyMap =
    "\x7b\x7bUNKNOWN\x7d\x7d" := by decide

example : format_ars_dots "1500000" = "1.500.000" := by decide

example : apply_x_style "XXXXXXXXX" (ofPairs [("POSITION", "P")]) = "PX" := by decide

example : replace_placeholders_in_text "XX de XXXXX de 2025"
    (ofPairs [("JOIN_DATE", "22 de agosto de 2025")]) = "22 de agosto de 2025" := by decide

example : apply_x_style " , Buenos Aires"
    (ofPairs [("DATE", "08 de agosto de 2025"), ("CITY", "Buenos Aires")]) =
    "08 de agosto de 2025, Buenos Aires" := by decide

example : apply_x_style "firmado, Buenos Aires" emptyMap = "Buenos Aires" := by decide

example : apply_x_style "\x7bXXXXXX\x7d y X.XXX.XXX"
    (ofPairs [("CANDIDATE_NAME", "Juan Perez"), ("SALARY", "1500000")]) =
    "Juan Perez y 1.500.000" := by decide

example : replace_placeholders_in_textE "hola"
    (ofPairs [("CANDIDATE_NAME", "\\d")]) =
    .error "re.error: invalid replacement template" := rfl

example : replace_placeholders_in_textE "hola" (ofPairs [("CANDIDATE_NAME", "Juan")]) =
    .ok "hola" := rfl

example : file_name_out "Juan  Perez " = "Offer Letter - Juan Perez.pptx" := by decide

example : file_name_out "" = "Offer Letter - Offer Letter.pptx" := by decide

/-- The curly scanner on an empty input yields an empty output at any
fuel. -/
theorem curlySubGo_nil (m : Mapping) : ∀ fuel, curlySubGo m fuel [] = [] := by
  intro fuel
  cases fuel <;> rfl

/-- With the empty mapping every curly match is replaced by its own
matched text, so the curly pass is the identity. -/
theorem curlySubGo_empty : ∀ (fuel : Nat) (l : List Char), l.length ≤ fuel →
    curlySubGo emptyMap fuel l = l := by
  intro fuel
  induction fuel with
  | zero => intro l _; rfl
  | succ f ih =>
    intro l hlen
    cases l with
    | nil => rfl
    | cons c rest =>
      rw [curlySubGo]
      cases hm : matchCurly (c :: rest) with
      | none =>
        have : rest.length ≤ f := by
          simp only [List.length_cons] at hlen
          omega
        simp [ih rest this]
      | some t =>
        obtain ⟨k, w, r⟩ := t
        obtain ⟨hw, hr⟩ := matchCurly_parts hm
        have : r.length ≤ f := by
          simp only [List.length_cons] at hlen hr
          omega
        have hrepl : curlyRepl emptyMap k w = w := rfl
        simp only [hrepl, ih r this]
        exact hw

/-- With the empty mapping the curly pass leaves any text unchanged. -/
theorem curlySub_empty (l : List Char) : curlySub emptyMap l = l :=
  curlySubGo_empty l.length l le_rfl

/-- With the empty mapping all four legacy guards are inactive, so the
resolver changes a text only through the city-line special case; a text
whose stripped form neither equals the city target nor ends with it is
returned unchanged. -/
theorem rpt_emptyMap (s : String)
    (h1 : ¬ stripL s.data = cityTarget)
    (h2 : ¬ hasSuffixL cityTarget (stripL s.data) = true) :
    replace_placeholders_in_text s emptyMap = s := by
  unfold replace_placeholders_in_text
  rw [curlySub_empty]
  show apply_x_style s emptyMap = s
  unfold apply_x_style
  have hsubs : applyXStyleSubs s.data emptyMap = s.data := rfl
  rw [hsubs, if_neg]
  intro hor
  rcases hor with hor | hor
  · exact h1 hor
  · exact h2 hor

/-- A token-free text is unchanged by the resolver under the empty
mapping. -/
theorem rpt_empty_of_noToken (s : String)
    (h : containsRecognizedToken s = false) :
    replace_placeholders_in_text s emptyMap = s := by
  unfold containsRecognizedToken at h
  simp only [Bool.or_eq_false_iff, decide_eq_false_iff_not] at h
  exact rpt_emptyMap s h.1.2 (by simp [h.2])

/-- A paragraph whose visible text is token-free is unchanged by the
walker under the empty mapping. -/
theorem replaceParagraph_empty (p : Para)
    (h : containsRecognizedToken (paraText p) = false) :
    replaceParagraph emptyMap p = p := by
  unfold replaceParagraph
  unfold paraText at h
  by_cases hr : p.runs.isEmpty
  · rw [if_pos hr] at h ⊢
    by_cases he : p.raw.isEmpty
    · rw [if_pos he]
    · rw [if_neg he, if_pos (rpt_empty_of_noToken p.raw h)]
  · rw [if_neg hr] at h ⊢
    rw [if_pos (rpt_empty_of_noToken (paraJoin p.runs) h)]

/-- A text frame with token-free paragraphs is unchanged by the walker
under the empty mapping. -/
theorem frameMap_empty (ps : List Para)
    (h : ∀ p ∈ ps, containsRecognizedToken (paraText p) = false) :
    frameMap emptyMap ps = ps := by
  unfold frameMap
  calc ps.map (replaceParagraph emptyMap) = ps.map id :=
    List.map_congr_left (fun p hp => replaceParagraph_empty p (h p hp))
  _ = ps := List.map_id ps

/-- Every shape has positive size. -/
theorem shape_sizeOf_pos (s : Shape) : 1 ≤ sizeOf s := by
  cases s <;> simp

/-- Main induction for the no-op render: on token-free texts the walker
is the identity, both on a single shape and on a shape list.  The
induction is on an upper bound of the size of the shape, which crosses
the nesting of groups. -/
theorem walk_empty_aux : ∀ n : Nat,
    (∀ s : Shape, sizeOf s ≤ n →
      (∀ t ∈ shapeTexts s, containsRecognizedToken t = false) →
      walkShape emptyMap s = s) ∧
    (∀ ss : List Shape, sizeOf ss ≤ n →
      (∀ t ∈ shapesTexts ss, containsRecognizedToken t = false) →
      walkShapes emptyMap ss = ss) := by
  intro n
  induction n with
  | zero =>
    constructor
    · intro s hs
      have := shape_sizeOf_pos s
      omega
    · intro ss hs
      cases ss with
      | nil => intro _; rfl
      | cons a l =>
        simp only [List.cons.sizeOf_spec] at hs
        have := shape_sizeOf_pos a
        omega
  | succ n ih =>
    constructor
    · intro s hs ht
      cases s with
      | txt ps =>
        rw [walkShape]
        rw [frameMap_empty ps]
        intro p hp
        exact ht (paraText p) (by simp [shapeTexts]; exact ⟨p, hp, rfl⟩)
      | table rows =>
        rw [walkShape]
        congr 1
        calc rows.map (fun row => row.map (frameMap emptyMap)) = rows.map id := by
              apply List.map_congr_left
              intro row hrow
              calc row.map (frameMap emptyMap) = row.map id := by
                    apply List.map_congr_left
                    intro cell hcell
                    simp only [id]
                    apply frameMap_empty
                    intro p hp
                    apply ht (paraText p)
                    simp only [shapeTexts, List.mem_flatten, List.mem_map]
                    exact ⟨_, ⟨row, hrow, rfl⟩, by
                      simp only [List.mem_flatten, List.mem_map]
                      exact ⟨_, ⟨cell, hcell, rfl⟩, List.mem_map_of_mem paraText hp⟩⟩
              _ = row := List.map_id row
        _ = rows := List.map_id rows
      | group ss =>
        rw [walkShape]
        have hsz : sizeOf ss ≤ n := by
          simp only [Shape.group.sizeOf_spec] at hs
          omega
        rw [(ih.2) ss hsz (fun t htm => ht t (by simpa [shapeTexts] using htm))]
      | other => rfl
    · intro ss hs ht
      cases ss with
      | nil => rfl
      | cons a l =>
        rw [walkShapes]
        simp only [List.cons.sizeOf_spec] at hs
        have ha : sizeOf a ≤ n := by omega
        have hl : sizeOf l ≤ n := by omega
        rw [(ih.1) a ha (fun t htm => ht t (by simp [shapesTexts, htm])),
          (ih.2) l hl (fun t htm => ht t (by simp [shapesTexts, htm]))]

/-- On a document all of whose paragraph texts are token-free, the render
with the empty mapping returns the document unchanged. -/
theorem render_empty (doc : List (List Shape))
    (h : ∀ t ∈ docTexts doc, containsRecognizedToken t = false) :
    render_pptx emptyMap doc = doc := by
  unfold render_pptx
  calc doc.map (walkShapes emptyMap) = doc.map id := by
        apply List.map_congr_left
        intro slide hslide
        simp only [id]
        apply (walk_empty_aux (sizeOf slide)).2 slide le_rfl
        intro t htm
        apply h t
        simp only [docTexts, List.mem_flatten, List.mem_map]
        exact ⟨_, ⟨slide, hslide, rfl⟩, htm⟩
  _ = doc := List.map_id doc

/-- A curly token written without inner whitespace and with a nonempty
key over the key class matches, consuming the whole token. -/
theorem matchCurly_token {k : List Char} (hne : k ≠ [])
    (hk : ∀ c ∈ k, isKeyCh c = true) :
    matchCurly ('{' :: '{' :: (k ++ '}' :: '}' :: [])) =
      some (k, '{' :: '{' :: (k ++ '}' :: '}' :: []), []) := by
  obtain ⟨c, k', rfl⟩ := List.exists_cons_of_ne_nil hne
  have hc : isKeyCh c = true := hk c (by simp)
  have hsp : isSpaceCh c = false := key_not_space hc
  have htk' := takeWhile_append_all (p := isKeyCh) k' ('}' :: '}' :: [])
    (fun x hx => hk x (by simp [hx]))
  have hT : List.takeWhile isKeyCh (k' ++ '}' :: '}' :: []) = k' := by
    rw [htk'.1]
    have : List.takeWhile isKeyCh ('}' :: '}' :: []) = [] := by decide
    rw [this, List.append_nil]
  have hD : List.dropWhile isKeyCh (k' ++ '}' :: '}' :: []) = '}' :: '}' :: [] := by
    rw [htk'.2]
    decide
  have h5 : List.takeWhile isSpaceCh ('}' :: '}' :: []) = [] := by decide
  have h6 : List.dropWhile isSpaceCh ('}' :: '}' :: []) = '}' :: '}' :: [] := by decide
  unfold matchCurly
  simp only [List.cons_append, List.takeWhile_cons, List.dropWhile_cons, hsp,
    Bool.false_eq_true, ite_false, hc, ite_true]
  simp only [hT, hD, h5, h6]
  simp

/-- Substituting the curly pass over exactly one token yields the
replacement chosen by the lookup callback. -/
theorem curlySub_token (m : Mapping) {k : List Char} (hne : k ≠ [])
    (hk : ∀ c ∈ k, isKeyCh c = true) :
    curlySub m ('{' :: '{' :: (k ++ '}' :: '}' :: [])) =
      curlyRepl m k ('{' :: '{' :: (k ++ '}' :: '}' :: [])) := by
  unfold curlySub
  show curlySubGo m (('{' :: '{' :: (k ++ '}' :: '}' :: [])).length)
    ('{' :: '{' :: (k ++ '}' :: '}' :: [])) = _
  have hlen : ('{' :: '{' :: (k ++ '}' :: '}' :: [])).length = (k.length + 3) + 1 := by
    simp
  rw [hlen, curlySubGo, matchCurly_token hne hk]
  simp [curlySubGo_nil]

/-- Lookup behaviour of the curly replacement callback on a key of the
key class: a present value is substituted verbatim (even the empty
string), an absent key keeps the matched text. -/
theorem curlyRepl_lookup (m : Mapping) {k : List Char}
    (hk : ∀ c ∈ k, isKeyCh c = true) (whole : List Char) :
    curlyRepl m k whole = (match m (String.mk k) with
      | some v => v.data
      | none => whole) := by
  unfold curlyRepl
  rw [upperStr_key hk]

/-- Evaluation of the literal name substitution on exactly the name
token: the token is replaced by the whole replacement text. -/
theorem subLit_name_token (v : List Char) :
    subLit patNameL v patNameL = v := by
  have h : subLit patNameL v patNameL = v ++ [] := rfl
  rw [h, List.append_nil]

/-- Evaluation of the position scanner on exactly eight X characters:
the run is replaced by the whole replacement text. -/
theorem posScan_token (v : List Char) :
    posScan v xs8 = v := by
  have h : posScan v xs8 = v ++ [] := rfl
  rw [h, List.append_nil]

/-- Evaluation of the date scanner on the date token with a five X month:
the token is replaced by the whole replacement text. -/
theorem dateScan_token (v : List Char) :
    dateScan v "XX de XXXXX de 2025".data = v := by
  have h : dateScan v "XX de XXXXX de 2025".data = v ++ [] := rfl
  rw [h, List.append_nil]

/-- Evaluation of the salary scanner on exactly the salary token: the
token is replaced by the whole replacement text. -/
theorem salScan_token (v : List Char) :
    salScan v patSalL = v := by
  have h : salScan v patSalL = v ++ [] := rfl
  rw [h, List.append_nil]

/-- Evaluation of the position scanner on a nine X run: the first eight
X characters are replaced and the ninth survives. -/
theorem posScan_nine (v : List Char) :
    posScan v (List.replicate 9 'X') = v ++ 'X' :: [] := rfl

/-- Evaluation of the position scanner on a sixteen X run: two adjacent
eight X blocks are replaced. -/
theorem posScan_sixteen (v : List Char) :
    posScan v (List.replicate 16 'X') = v ++ v := by
  have h : posScan v (List.replicate 16 'X') = v ++ (v ++ []) := rfl
  rw [h, List.append_nil]

/-- The position scanner does not touch an eight X run enclosed in
braces (the lookbehind and lookahead fail), nor one followed by a close
brace. -/
theorem posScan_enclosed (v : List Char) :
    posScan v "\x7bXXXXXXXX\x7d".data = "\x7bXXXXXXXX\x7d".data ∧
    posScan v "XXXXXXXX\x7d".data = "XXXXXXXX\x7d".data := ⟨rfl, rfl⟩

/-- A backslash-free replacement template is valid and expands to
itself. -/
theorem expandReplGo_noBackslash : ∀ (fuel : Nat) (l : List Char), l.length ≤ fuel →
    '\\' ∉ l → expandReplGo fuel l = some l := by
  intro fuel
  induction fuel with
  | zero => intro l _ _; rfl
  | succ f ih =>
    intro l hlen hbs
    cases l with
    | nil => rfl
    | cons c rest =>
      have hc : ¬ c = '\\' := fun h => hbs (h ▸ List.mem_cons_self c rest)
      rw [expandReplGo.eq_def]
      dsimp only
      rw [if_neg (by simp [hc])]
      rw [ih rest (by simp only [List.length_cons] at hlen; omega)
        (fun h => hbs (List.mem_cons_of_mem c h))]
      rfl

/-- Wrapper form of the backslash-free template expansion. -/
theorem expandRepl_noBackslash (l : List Char) (h : '\\' ∉ l) :
    expandRepl l = some l :=
  expandReplGo_noBackslash l.length l le_rfl h

/-- The raise-aware name stage agrees with the literal one on
backslash-free values. -/
theorem nameStepE_agree (m : Mapping) (h : noBS (m "CANDIDATE_NAME"))
    (t : List Char) :
    nameStepE m t = Except.ok (nameStep m t) := by
  unfold nameStepE nameStep
  cases hm : m "CANDIDATE_NAME" with
  | none => rfl
  | some v =>
    by_cases he : v.isEmpty
    · simp [he]
    · simp [he, expandRepl_noBackslash v.data (h v hm)]

/-- The raise-aware position stage agrees with the literal one on
backslash-free values. -/
theorem posStepE_agree (m : Mapping) (h : noBS (m "POSITION"))
    (t : List Char) :
    posStepE m t = Except.ok (posStep m t) := by
  unfold posStepE posStep
  cases hm : m "POSITION" with
  | none => rfl
  | some v =>
    by_cases he : v.isEmpty
    · simp [he]
    · simp [he, expandRepl_noBackslash v.data (h v hm)]

/-- The raise-aware join-date stage agrees with the literal one on
backslash-free values. -/
theorem dateStepE_agree (m : Mapping) (h : noBS (m "JOIN_DATE"))
    (t : List Char) :
    dateStepE m t = Except.ok (dateStep m t) := by
  unfold dateStepE dateStep
  cases hm : m "JOIN_DATE" with
  | none => rfl
  | some v =>
    by_cases he : v.isEmpty
    · simp [he]
    · simp [he, expandRepl_noBackslash v.data (h v hm)]

/-- Characters produced by the digit-string grouping: characters of the
input or dots. -/
theorem group3Go_mem : ∀ (fuel : Nat) (l : List Char) (c : Char),
    c ∈ group3Go fuel l → c ∈ l ∨ c = '.' := by
  intro fuel
  induction fuel with
  | zero => intro l c hc; exact Or.inl hc
  | succ f ih =>
    intro l c hc
    match l with
    | [] => exact Or.inl hc
    | a :: [] => exact Or.inl hc
    | a :: b :: [] => exact Or.inl hc
    | a :: b :: d :: [] => exact Or.inl hc
    | a :: b :: d :: e :: rest =>
      rw [group3Go] at hc
      rcases List.mem_cons.mp hc with h | hc
      · exact Or.inl (by simp [h])
      rcases List.mem_cons.mp hc with h | hc
      · exact Or.inl (by simp [h])
      rcases List.mem_cons.mp hc with h | hc
      · exact Or.inl (by simp [h])
      rcases List.mem_cons.mp hc with h | hc
      · exact Or.inr h
      rcases ih (e :: rest) c hc with h | h
      · exact Or.inl (by simp [List.mem_cons.mp h])
      · exact Or.inr h

/-- Every character of the decimal representation of a natural number is
a digit (the base-ten digit characters of toDigitsCore). -/
theorem toDigitsCore_mem10 : ∀ (fuel n : Nat) (acc : List Char),
    ∀ c ∈ Nat.toDigitsCore 10 fuel n acc, c ∈ acc ∨ isDigitCh c = true := by
  intro fuel
  induction fuel with
  | zero => intro n acc c hc; exact Or.inl hc
  | succ f ih =>
    intro n acc c hc
    have hd : isDigitCh (Nat.digitChar (n % 10)) = true := by
      have hlt : n % 10 < 10 := Nat.mod_lt _ (by omega)
      set k := n % 10 with hk
      interval_cases k <;> decide
    rw [Nat.toDigitsCore] at hc
    split at hc
    · rcases List.mem_cons.mp hc with h | h
      · exact Or.inr (h ▸ hd)
      · exact Or.inl h
    · rcases ih (n / 10) (Nat.digitChar (n % 10) :: acc) c hc with h | h
      · rcases List.mem_cons.mp h with h | h
        · exact Or.inr (h ▸ hd)
        · exact Or.inl h
      · exact Or.inr h

/-- Every character of Nat.repr is a decimal digit. -/
theorem repr_all_digits (n : Nat) : ∀ c ∈ (Nat.repr n).data, isDigitCh c = true := by
  intro c hc
  have he : (Nat.repr n).data = Nat.toDigitsCore 10 (n + 1) n [] := rfl
  rw [he] at hc
  rcases toDigitsCore_mem10 (n + 1) n [] c hc with h | h
  · exact absurd h (List.not_mem_nil c)
  · exact h

/-- Characters of the dot-grouped rendering: digits or dots. -/
theorem groupDots_mem (n : Nat) :
    ∀ c ∈ (groupDots n).data, isDigitCh c = true ∨ c = '.' := by
  intro c hc
  unfold groupDots at hc
  rw [show (String.mk ((group3Go (Nat.repr n).data.reverse.length
      (Nat.repr n).data.reverse).reverse)).data =
      (group3Go (Nat.repr n).data.reverse.length (Nat.repr n).data.reverse).reverse from rfl,
    List.mem_reverse] at hc
  rcases group3Go_mem _ _ c hc with h | h
  · exact Or.inl (repr_all_digits n c (List.mem_reverse.mp h))
  · exact Or.inr h

/-- The dot-formatted salary is backslash-free whenever the raw salary
value is. -/
theorem format_noBackslash (v : String) (h : '\\' ∉ v.data) :
    '\\' ∉ (format_ars_dots v).data := by
  unfold format_ars_dots
  by_cases hd : (v.data.filter isDigitCh).isEmpty
  · simpa [hd] using h
  · simp only [hd, ite_false]
    intro hmem
    rcases groupDots_mem _ '\\' hmem with hdig | hdot
    · exact absurd hdig (by decide)
    · exact absurd hdot (by decide)

/-- The raise-aware salary stage agrees with the literal one on
backslash-free values. -/
theorem salStepE_agree (m : Mapping) (h : noBS (m "SALARY"))
    (t : List Char) :
    salStepE m t = Except.ok (salStep m t) := by
  unfold salStepE salStep
  cases hm : m "SALARY" with
  | none => rfl
  | some v =>
    by_cases he : v.isEmpty
    · simp [he]
    · simp [he, expandRepl_noBackslash (format_ars_dots v).data
        (format_noBackslash v (h v hm))]

/-- The raise-aware resolver agrees with the literal one, and in
particular returns a value rather than raising, whenever the four
legacy replacement values are backslash-free. -/
theorem apply_x_styleE_agree (text : String) (m : Mapping)
    (h1 : noBS (m "CANDIDATE_NAME")) (h2 : noBS (m "POSITION"))
    (h3 : noBS (m "JOIN_DATE")) (h4 : noBS (m "SALARY")) :
    apply_x_styleE text m = Except.ok (apply_x_style text m) := by
  unfold apply_x_styleE apply_x_style
  simp only [nameStepE_agree m h1, posStepE_agree m h2, dateStepE_agree m h3,
    salStepE_agree m h4, applyXStyleSubs]
  by_cases hcond : stripL (salStep m (dateStep m (posStep m (nameStep m text.data)))) =
      cityTarget ∨
      hasSuffixL cityTarget
        (stripL (salStep m (dateStep m (posStep m (nameStep m text.data))))) = true
  · rw [if_pos hcond, if_pos hcond]
    cases m "DATE" <;> rfl
  · rw [if_neg hcond, if_neg hcond]

/-- A string different from the empty string has a false isEmpty flag. -/
theorem isEmpty_false_of_ne {v : String} (h : ¬ v = "") : v.isEmpty = false := by
  cases hv : v.isEmpty
  · rfl
  · exact absurd ((String.isEmpty_iff v).mp hv) h

/-- Removing the dots from the grouped digit string recovers the digit
string: the grouping pass only inserts dots. -/
theorem group3Go_filter : ∀ (fuel : Nat) (l : List Char),
    (group3Go fuel l).filter (fun c => !(c == '.')) =
      l.filter (fun c => !(c == '.')) := by
  intro fuel
  induction fuel with
  | zero => intro l; rfl
  | succ f ih =>
    intro l
    match l with
    | [] => rfl
    | a :: [] => rfl
    | a :: b :: [] => rfl
    | a :: b :: d :: [] => rfl
    | a :: b :: d :: e :: rest =>
      rw [group3Go]
      simp only [List.filter_cons, ih (e :: rest)]
      simp

/-- Removing the dots from the dot-grouped rendering of a natural number
recovers its plain decimal representation. -/
theorem groupDots_filter (n : Nat) :
    (groupDots n).data.filter (fun c => !(c == '.')) = (Nat.repr n).data := by
  unfold groupDots
  show (List.reverse _).filter _ = _
  rw [List.filter_reverse, group3Go_filter, List.filter_reverse, List.reverse_reverse]
  apply List.filter_eq_self.mpr
  intro c hc
  have hd := repr_all_digits n c hc
  have : ¬ c = '.' := by
    intro he
    rw [he] at hd
    exact absurd hd (by decide)
  simp [this]

/-- The name stage maps the empty text to the empty text. -/
theorem nameStep_nil (m : Mapping) : nameStep m [] = [] := by
  unfold nameStep
  cases m "CANDIDATE_NAME" with
  | none => rfl
  | some v =>
    dsimp only
    by_cases he : v.isEmpty = true
    · rw [if_pos he]
    · rw [if_neg he]
      rfl

/-- The position stage maps the empty text to the empty text. -/
theorem posStep_nil (m : Mapping) : posStep m [] = [] := by
  unfold posStep
  cases m "POSITION" with
  | none => rfl
  | some v =>
    dsimp only
    by_cases he : v.isEmpty = true
    · rw [if_pos he]
    · rw [if_neg he]
      rfl

/-- The join-date stage maps the empty text to the empty text. -/
theorem dateStep_nil (m : Mapping) : dateStep m [] = [] := by
  unfold dateStep
  cases m "JOIN_DATE" with
  | none => rfl
  | some v =>
    dsimp only
    by_cases he : v.isEmpty = true
    · rw [if_pos he]
    · rw [if_neg he]
      rfl

/-- The salary stage maps the empty text to the empty text. -/
theorem salStep_nil (m : Mapping) : salStep m [] = [] := by
  unfold salStep
  cases m "SALARY" with
  | none => rfl
  | some v =>
    dsimp only
    by_cases he : v.isEmpty = true
    · rw [if_pos he]
    · rw [if_neg he]
      rfl

/-- The resolver maps the empty string to the empty string, for every
mapping: there is no token in it and the city-line case cannot fire. -/
theorem rpt_nil (m : Mapping) : replace_placeholders_in_text "" m = "" := by
  unfold replace_placeholders_in_text apply_x_style
  have h1 : curlySub m "".data = [] := rfl
  rw [h1]
  have h2 : applyXStyleSubs (String.mk []).data m = [] := by
    show applyXStyleSubs [] m = []
    unfold applyXStyleSubs
    rw [nameStep_nil, posStep_nil, dateStep_nil, salStep_nil]
  rw [h2, if_neg]
  intro hor
  rcases hor with hor | hor
  · exact absurd hor (by decide)
  · exact absurd hor (by decide)

/--
Claim C1: for every paragraph with at least one run, the walker
concatenates all run texts into one flattened string and applies the
resolver to it; if the result equals the flattened string no run is
modified (the paragraph is returned untouched, run texts and boundaries
included); if it differs, the entire resolved string is written into the
first run and every other run is blanked (the raw text is untouched).  A
paragraph with no runs is resolved directly against its raw text and
written back whole exactly when changed (the source guards the empty raw
text, but the resolver fixes the empty string, so the guard does not
change the outcome).
-/
theorem claim_C1 (m : Mapping) (p : Para) :
    (p.runs ≠ [] →
      (replace_placeholders_in_text (paraJoin p.runs) m = paraJoin p.runs →
        replaceParagraph m p = p) ∧
      (replace_placeholders_in_text (paraJoin p.runs) m ≠ paraJoin p.runs →
        replaceParagraph m p =
          { p with runs := replace_placeholders_in_text (paraJoin p.runs) m ::
              List.replicate (p.runs.length - 1) "" })) ∧
    (p.runs = [] →
      replaceParagraph m p =
        (if replace_placeholders_in_text p.raw m = p.raw then p
         else { p with raw := replace_placeholders_in_text p.raw m })) := by
  constructor
  · intro hne
    have hr : p.runs.isEmpty = false := by
      cases hp : p.runs with
      | nil => exact absurd hp hne
      | cons a l => rfl
    constructor
    · intro heq
      unfold replaceParagraph
      rw [if_neg (by simp [hr]), if_pos heq]
    · intro hne2
      unfold replaceParagraph
      rw [if_neg (by simp [hr]), if_neg hne2]
  · intro hnil
    have hr : p.runs.isEmpty = true := by rw [hnil]; rfl
    unfold replaceParagraph
    rw [if_pos hr]
    by_cases he : p.raw.isEmpty = true
    · have hraw : p.raw = "" := (String.isEmpty_iff p.raw).mp he
      rw [if_pos he, hraw, rpt_nil m, if_pos rfl]
    · rw [if_neg he]

/-- Witness for claim C1, the split-run scenario of the specification: a
paragraph holding the name token split across three runs is rewritten to
the resolved name in the first run with the later runs blanked. -/
theorem claim_C1_witness :
    replaceParagraph (ofPairs [("CANDIDATE_NAME", "Juan Perez")])
      ⟨["\x7bX", "XXXXX", "\x7d"], ""⟩ = ⟨["Juan Perez", "", ""], ""⟩ := by
  have h := ((claim_C1 (ofPairs [("CANDIDATE_NAME", "Juan Perez")])
    ⟨["\x7bX", "XXXXX", "\x7d"], ""⟩).1 (by decide)).2 (by decide)
  rw [h]
  decide

/--
Claim C2: a curly token whose (uppercased) key is present in the mapping
is replaced by the mapped value even when that value is the empty
string, and a curly token whose key is absent is left verbatim; each
legacy X-style token (name, position, date, salary) is substituted only
when the corresponding mapping value is nonempty, an empty or missing
value leaving the whole text untouched by that stage.
-/
theorem claim_C2 (m : Mapping) (k : String) (hne : k.data ≠ [])
    (hk : ∀ c ∈ k.data, isKeyCh c = true) :
    (∀ v, m k = some v →
      String.mk (curlySub m ("\x7b\x7b" ++ k ++ "\x7d\x7d").data) = v) ∧
    (m k = none →
      String.mk (curlySub m ("\x7b\x7b" ++ k ++ "\x7d\x7d").data) =
        "\x7b\x7b" ++ k ++ "\x7d\x7d") ∧
    (optTruthy (m "CANDIDATE_NAME") = false → ∀ t, nameStep m t = t) ∧
    (∀ v, m "CANDIDATE_NAME" = some v → ¬ v = "" → nameStep m patNameL = v.data) ∧
    (optTruthy (m "POSITION") = false → ∀ t, posStep m t = t) ∧
    (∀ v, m "POSITION" = some v → ¬ v = "" → posStep m xs8 = v.data) ∧
    (optTruthy (m "JOIN_DATE") = false → ∀ t, dateStep m t = t) ∧
    (∀ v, m "JOIN_DATE" = some v → ¬ v = "" →
      dateStep m "XX de XXXXX de 2025".data = v.data) ∧
    (optTruthy (m "SALARY") = false → ∀ t, salStep m t = t) ∧
    (∀ v, m "SALARY" = some v → ¬ v = "" →
      salStep m patSalL = (format_ars_dots v).data) := by
  have hdata : ("\x7b\x7b" ++ k ++ "\x7d\x7d").data =
      '{' :: '{' :: (k.data ++ '}' :: '}' :: []) := by
    simp [String.data_append]
  have hmk : String.mk k.data = k := rfl
  refine ⟨?_, ?_, ?_, ?_, ?_, ?_, ?_, ?_, ?_, ?_⟩
  · intro v hv
    rw [hdata, curlySub_token m hne hk, curlyRepl_lookup m hk, hmk, hv]
  · intro hv
    rw [hdata, curlySub_token m hne hk, curlyRepl_lookup m hk, hmk, hv]
    rw [← hdata]
  · intro ht t
    unfold nameStep
    cases hm : m "CANDIDATE_NAME" with
    | none => rfl
    | some v =>
      rw [hm] at ht
      simp only [optTruthy, Bool.not_eq_false'] at ht
      dsimp only
      rw [if_pos ht]
  · intro v hv hne2
    unfold nameStep
    rw [hv]
    dsimp only
    rw [if_neg (by simp [isEmpty_false_of_ne hne2])]
    exact subLit_name_token v.data
  · intro ht t
    unfold posStep
    cases hm : m "POSITION" with
    | none => rfl
    | some v =>
      rw [hm] at ht
      simp only [optTruthy, Bool.not_eq_false'] at ht
      dsimp only
      rw [if_pos ht]
  · intro v hv hne2
    unfold posStep
    rw [hv]
    dsimp only
    rw [if_neg (by simp [isEmpty_false_of_ne hne2])]
    exact posScan_token v.data
  · intro ht t
    unfold dateStep
    cases hm : m "JOIN_DATE" with
    | none => rfl
    | some v =>
      rw [hm] at ht
      simp only [optTruthy, Bool.not_eq_false'] at ht
      dsimp only
      rw [if_pos ht]
  · intro v hv hne2
    unfold dateStep
    rw [hv]
    dsimp only
    rw [if_neg (by simp [isEmpty_false_of_ne hne2])]
    exact dateScan_token v.data
  · intro ht t
    unfold salStep
    cases hm : m "SALARY" with
    | none => rfl
    | some v =>
      rw [hm] at ht
      simp only [optTruthy, Bool.not_eq_false'] at ht
      dsimp only
      rw [if_pos ht]
  · intro v hv hne2
    unfold salStep
    rw [hv]
    dsimp only
    rw [if_neg (by simp [isEmpty_false_of_ne hne2])]
    exact salScan_token (format_ars_dots v).data

/-- Witness for claim C2: the empty string stored under NAME is a valid
curly substitution (the token disappears), while the nonempty
CANDIDATE_NAME drives the legacy name token. -/
theorem claim_C2_witness :
    String.mk (curlySub (ofPairs [("NAME", ""), ("CANDIDATE_NAME", "Juan")])
      ("\x7b\x7b" ++ "NAME" ++ "\x7d\x7d").data) = "" ∧
    nameStep (ofPairs [("NAME", ""), ("CANDIDATE_NAME", "Juan")]) patNameL =
      "Juan".data := by
  constructor
  · exact (claim_C2 (ofPairs [("NAME", ""), ("CANDIDATE_NAME", "Juan")]) "NAME"
      (by decide) (by decide)).1 "" (by decide)
  · exact (claim_C2 (ofPairs [("NAME", ""), ("CANDIDATE_NAME", "Juan")]) "NAME"
      (by decide) (by decide)).2.2.2.1 "Juan" (by decide) (by decide)

/--
Claim C3: when, after the four legacy substitutions, the stripped text
is exactly the string comma Buenos Aires or ends with that suffix, the
resolver replaces the entire text: with the CITY default Buenos Aires
when the key is absent, with just the city when DATE is empty or absent,
and with date comma city when both are present and nonempty.
-/
theorem claim_C3 (text : String) (m : Mapping)
    (h : stripL (applyXStyleSubs text.data m) = cityTarget ∨
      hasSuffixL cityTarget (stripL (applyXStyleSubs text.data m)) = true) :
    (m "CITY" = none → apply_x_style text m =
      (if optTruthy (m "DATE") then ((m "DATE").getD "") ++ ", " ++ "Buenos Aires"
       else "Buenos Aires")) ∧
    (optTruthy (m "DATE") = false → apply_x_style text m = cityOf m) ∧
    (∀ d c', m "DATE" = some d → ¬ d = "" → m "CITY" = some c' →
      apply_x_style text m = d ++ ", " ++ c') := by
  have hmain : apply_x_style text m = (match m "DATE" with
      | some d => if d.isEmpty then cityOf m else d ++ ", " ++ cityOf m
      | none => cityOf m) := by
    unfold apply_x_style
    rw [if_pos h]
  refine ⟨?_, ?_, ?_⟩
  · intro hc
    rw [hmain]
    unfold cityOf
    rw [hc]
    cases hd : m "DATE" with
    | none => rfl
    | some d =>
      dsimp only
      by_cases he : d.isEmpty = true
      · simp [optTruthy, he]
      · simp [optTruthy, he]
  · intro ht
    rw [hmain]
    cases hd : m "DATE" with
    | none => rfl
    | some d =>
      rw [hd] at ht
      simp only [optTruthy, Bool.not_eq_false'] at ht
      dsimp only
      rw [if_pos ht]
  · intro d c' hd hne2 hc'
    rw [hmain, hd]
    dsimp only
    rw [if_neg (by simp [isEmpty_false_of_ne hne2])]
    unfold cityOf
    rw [hc']
    rfl

/-- Witness for claim C3: a lone city line with a date and no CITY key
becomes the date followed by the default city. -/
theorem claim_C3_witness :
    apply_x_style ", Buenos Aires" (ofPairs [("DATE", "08 de agosto de 2025")]) =
      "08 de agosto de 2025, Buenos Aires" := by
  have h := (claim_C3 ", Buenos Aires" (ofPairs [("DATE", "08 de agosto de 2025")])
    (by decide)).1 (by decide)
  rw [h]
  decide

/-- Counterexample to claim C4: curly lookup is not case insensitive in
the token text.  With the mapping storing NAME, the uppercase-spelled
token resolves to the value but the lowercase-spelled token is left
verbatim, which differs from the value. -/
theorem claim_C4_counterexample :
    replace_placeholders_in_text "\x7b\x7bNAME\x7d\x7d" (ofPairs [("NAME", "Ana")]) =
      "Ana" ∧
    replace_placeholders_in_text "\x7b\x7bname\x7d\x7d" (ofPairs [("NAME", "Ana")]) =
      "\x7b\x7bname\x7d\x7d" ∧
    ¬ "\x7b\x7bname\x7d\x7d" = "Ana" := by decide

/--
Claim C4 as amended: the curly-token pattern only admits keys over
uppercase letters, digits and underscore, so an uppercase-spelled token
resolves against the stored key while a lowercase-spelled token never
matches and is left verbatim for every mapping; the uppercase
normalisation applies only to matched keys, where it is the identity.
-/
theorem claim_C4 (m : Mapping) (v : String) (hv : m "NAME" = some v) :
    String.mk (curlySub m "\x7b\x7bNAME\x7d\x7d".data) = v ∧
    (∀ m2 : Mapping, curlySub m2 "\x7b\x7bname\x7d\x7d".data =
      "\x7b\x7bname\x7d\x7d".data) := by
  constructor
  · have hform : "\x7b\x7bNAME\x7d\x7d".data =
        '{' :: '{' :: ("NAME".data ++ '}' :: '}' :: []) := rfl
    have hmk : String.mk "NAME".data = "NAME" := rfl
    rw [hform, curlySub_token m (by decide) (by decide),
      curlyRepl_lookup m (by decide), hmk, hv]
  · intro m2
    rfl

/-- Witness for claim C4 at a concrete mapping. -/
theorem claim_C4_witness :
    String.mk (curlySub (ofPairs [("NAME", "Ana")]) "\x7b\x7bNAME\x7d\x7d".data) =
      "Ana" :=
  (claim_C4 (ofPairs [("NAME", "Ana")]) "Ana" (by decide)).1

/-- Counterexample to claim C5: a run of nine consecutive X characters is
partially replaced (the position pattern has no guard against an
adjacent X), so the text does not stay unchanged. -/
theorem claim_C5_counterexample :
    ¬ apply_x_style "XXXXXXXXX" (ofPairs [("POSITION", "P")]) = "XXXXXXXXX" := by
  decide

/--
Claim C5 as amended: with a nonempty POSITION value, eight consecutive X
characters are replaced whenever they are not immediately preceded by an
open brace and not immediately followed by a close brace; the scan is
leftmost and non-overlapping, so a longer X run is replaced in blocks of
eight: a standalone eight run becomes the value, a brace-enclosed run
and a run followed by a close brace are untouched, a nine run becomes
the value followed by one X, and a sixteen run becomes the value twice.
-/
theorem claim_C5 (m : Mapping) (v : String) (hv : m "POSITION" = some v)
    (hne : ¬ v = "") :
    posStep m xs8 = v.data ∧
    posStep m "\x7bXXXXXXXX\x7d".data = "\x7bXXXXXXXX\x7d".data ∧
    posStep m "XXXXXXXX\x7d".data = "XXXXXXXX\x7d".data ∧
    posStep m (List.replicate 9 'X') = v.data ++ 'X' :: [] ∧
    posStep m (List.replicate 16 'X') = v.data ++ v.data := by
  unfold posStep
  rw [hv]
  dsimp only
  simp only [isEmpty_false_of_ne hne, Bool.false_eq_true, if_false]
  exact ⟨posScan_token v.data, (posScan_enclosed v.data).1,
    (posScan_enclosed v.data).2, posScan_nine v.data, posScan_sixteen v.data⟩

/-- Witness for claim C5 at the concrete position value P. -/
theorem claim_C5_witness :
    posStep (ofPairs [("POSITION", "P")]) xs8 = "P".data ∧
    posStep (ofPairs [("POSITION", "P")]) (List.replicate 9 'X') =
      "P".data ++ 'X' :: [] := by
  have h := claim_C5 (ofPairs [("POSITION", "P")]) "P" (by decide) (by decide)
  exact ⟨h.1, h.2.2.2.1⟩

/-- Counterexample to claim C6: the resolver can raise.  CPython compiles
a re.sub replacement template eagerly, so a CANDIDATE_NAME value holding
the invalid escape backslash-d raises re.error even on a text in which
the name pattern never occurs. -/
theorem claim_C6_counterexample :
    replace_placeholders_in_textE "hola" (ofPairs [("CANDIDATE_NAME", "\\d")]) =
      Except.error "re.error: invalid replacement template" := rfl

/--
Claim C6 as amended: for every text and every mapping whose
CANDIDATE_NAME, POSITION, JOIN_DATE and SALARY values contain no
backslash, the resolver returns a string and never raises; a backslash
introduces a replacement-template escape, and an invalid one (such as
backslash-d or a reference to a nonexistent group) raises re.error even
when the pattern does not occur in the text.
-/
theorem claim_C6 (text : String) (m : Mapping)
    (h1 : noBS (m "CANDIDATE_NAME")) (h2 : noBS (m "POSITION"))
    (h3 : noBS (m "JOIN_DATE")) (h4 : noBS (m "SALARY")) :
    replace_placeholders_in_textE text m =
      Except.ok (replace_placeholders_in_text text m) := by
  unfold replace_placeholders_in_textE replace_placeholders_in_text
  exact apply_x_styleE_agree (String.mk (curlySub m text.data)) m h1 h2 h3 h4

/-- Witness for claim C6: with ordinary backslash-free values the
raise-aware resolver returns ok of the literal resolution. -/
theorem claim_C6_witness :
    replace_placeholders_in_textE "\x7bXXXXXX\x7d hola"
      (ofPairs [("CANDIDATE_NAME", "Juan Perez")]) =
      Except.ok (replace_placeholders_in_text "\x7bXXXXXX\x7d hola"
        (ofPairs [("CANDIDATE_NAME", "Juan Perez")])) := by
  apply claim_C6
  · intro s hs
    have he : ofPairs [("CANDIDATE_NAME", "Juan Perez")] "CANDIDATE_NAME" =
        some "Juan Perez" := rfl
    rw [he] at hs
    injection hs with hs
    rw [← hs]
    decide
  · intro s hs
    have he : ofPairs [("CANDIDATE_NAME", "Juan Perez")] "POSITION" = none := rfl
    rw [he] at hs
    exact absurd hs (by simp)
  · intro s hs
    have he : ofPairs [("CANDIDATE_NAME", "Juan Perez")] "JOIN_DATE" = none := rfl
    rw [he] at hs
    exact absurd hs (by simp)
  · intro s hs
    have he : ofPairs [("CANDIDATE_NAME", "Juan Perez")] "SALARY" = none := rfl
    rw [he] at hs
    exact absurd hs (by simp)

/--
Claim C7: on a syntactically valid document whose paragraph texts
contain zero recognized tokens (no curly token, none of the four legacy
X-style patterns, and no city-line suffix), rendering with the empty
mapping preserves every paragraph text, in traversal order, through
arbitrarily nested groups and tables.
-/
theorem claim_C7 (doc : List (List Shape))
    (h : ∀ t ∈ docTexts doc, containsRecognizedToken t = false) :
    docTexts (render_pptx emptyMap doc) = docTexts doc := by
  rw [render_empty doc h]

/-- Witness for claim C7: a document with a plain text frame, a table
inside a group inside a group, and an inert shape, all token-free, keeps
its texts. -/
theorem claim_C7_witness :
    docTexts (render_pptx emptyMap
      [[Shape.txt [⟨["Hola "], ""⟩, ⟨[], "mundo"⟩],
        Shape.group [Shape.table [[[⟨["celda"], ""⟩]]],
          Shape.group [Shape.txt [⟨["x", "y"], ""⟩]]],
        Shape.other]]) =
      docTexts
      [[Shape.txt [⟨["Hola "], ""⟩, ⟨[], "mundo"⟩],
        Shape.group [Shape.table [[[⟨["celda"], ""⟩]]],
          Shape.group [Shape.txt [⟨["x", "y"], ""⟩]]],
        Shape.other]] := by
  apply claim_C7
  intro t ht
  have he : docTexts
      [[Shape.txt [⟨["Hola "], ""⟩, ⟨[], "mundo"⟩],
        Shape.group [Shape.table [[[⟨["celda"], ""⟩]]],
          Shape.group [Shape.txt [⟨["x", "y"], ""⟩]]],
        Shape.other]] = ["Hola ", "mundo", "celda", "xy"] := rfl
  rw [he] at ht
  simp only [List.mem_cons, List.not_mem_nil, or_false] at ht
  rcases ht with rfl | rfl | rfl | rfl <;> decide

/--
Claim C8: the thousands formatter strips every non-digit character; if
no digit remains the original value is returned unchanged, otherwise the
digit string is parsed as a nonnegative integer and rendered with a dot
as thousands separator (removing the dots recovers the plain decimal
representation); the example inputs 1500000, abc and the numeric
2000000 produce 1.500.000, abc and 2.000.000.
-/
theorem claim_C8 :
    (∀ s : String, format_ars_dots s =
      (if (s.data.filter isDigitCh).isEmpty then s
       else groupDots (digitsToNat (s.data.filter isDigitCh)))) ∧
    (∀ n : Nat, (groupDots n).data.filter (fun c => !(c == '.')) =
      (Nat.repr n).data) ∧
    format_ars_dots "1500000" = "1.500.000" ∧
    format_ars_dots "abc" = "abc" ∧
    format_ars_dots (Nat.repr 2000000) = "2.000.000" :=
  ⟨fun _ => rfl, groupDots_filter, by decide, by decide, by decide⟩

/-- Counterexample to claim C9: with an empty resolved full name the
suggested filename is not Offer Letter dot pptx; the fallback name is
spliced into the usual pattern instead. -/
theorem claim_C9_counterexample :
    file_name_out "" = "Offer Letter - Offer Letter.pptx" ∧
    ¬ file_name_out "" = "Offer Letter.pptx" := by decide

/--
Claim C9 as amended: the suggested output filename is Offer Letter
hyphen the candidate name dot pptx, with whitespace runs in the name
collapsed; when the collapsed name is empty the fallback name Offer
Letter is substituted, producing Offer Letter - Offer Letter.pptx.
-/
theorem claim_C9 (full : String) :
    (¬ collapseWs full = "" →
      file_name_out full = "Offer Letter - " ++ collapseWs full ++ ".pptx") ∧
    (collapseWs full = "" →
      file_name_out full = "Offer Letter - Offer Letter.pptx") := by
  constructor
  · intro h
    unfold file_name_out safe_name
    rw [if_neg h]
  · intro h
    unfold file_name_out safe_name
    rw [if_pos h]
    decide

/-- Witness for claim C9: a name with doubled inner and trailing
whitespace collapses in the filename, and the empty name produces the
doubled fallback filename. -/
theorem claim_C9_witness :
    file_name_out "Juan  Perez " = "Offer Letter - Juan Perez.pptx" ∧
    file_name_out "" = "Offer Letter - Offer Letter.pptx" := by
  constructor
  · rw [(claim_C9 "Juan  Perez ").1 (by decide)]
    decide
  · exact (claim_C9 "").2 (by decide)

/--
Claim C10: curly substitution is single pass; a substituted value is not
rescanned, so resolving the token A with a mapping that sends A to the
literal token B and B to x yields the literal token B, not x.
-/
theorem claim_C10 :
    replace_placeholders_in_text "\x7b\x7bA\x7d\x7d"
        (ofPairs [("A", "\x7b\x7bB\x7d\x7d"), ("B", "x")]) =
      "\x7b\x7bB\x7d\x7d" ∧
    ¬ ("\x7b\x7bB\x7d\x7d" : String) = "x" := by decide

end OfferApp
